import Mathlib

/-
Verification of the pychessexporter repository: a shallow embedding of
src/data_models.py and src/game_exporter.py, followed by theorems that
settle the frozen claims about the parser (create_game_from_json) and
the report renderer (Game.to_console and its helper sections).

Conventions of the embedding:
* Python exceptions (KeyError, IndexError, TypeError, AttributeError) are
  modelled by Except String (for the parser) and by Option (for the
  renderer): an error value means the Python code raises at that point.
* Python dicts parsed from JSON are modelled by the JsonVal type below.
* Machine integers are Int (Python ints are unbounded, so no wrap-around).
* The external chess rules engine (python-chess) is out of scope per the
  specification; board replay is parameterised by a push function of type
  PushSan, and the Board record models exactly the three queries the
  renderer uses: the textual piece placement, the piece placement
  notation, and the stack of applied moves.
-/

namespace PyChess

set_option maxRecDepth 16384

/-! ## Generic list and string helpers (Python semantics) -/

/-- True when the first list occurs as a contiguous run at the head of the second. -/
def charsBeginWith : List Char → List Char → Bool
  | [], _ => true
  | _ :: _, [] => false
  | a :: as, b :: bs => a == b && charsBeginWith as bs

/-- True when the first list occurs as a contiguous run anywhere in the second.
Models the Python substring test, as in the expression
"analysis" in json.dumps(json_game). -/
def charsContain (needle : List Char) : List Char → Bool
  | [] => needle.isEmpty
  | b :: bs => charsBeginWith needle (b :: bs) || charsContain needle bs

/-- Python str.split(sep) with a single-character separator: splits on every
occurrence, keeping empty pieces, and returns one (empty) piece for the
empty string. -/
def pySplitCharGo (sep : Char) (acc : List Char) : List Char → List String
  | [] => [String.mk acc.reverse]
  | c :: rest =>
    if c == sep then String.mk acc.reverse :: pySplitCharGo sep [] rest
    else pySplitCharGo sep (c :: acc) rest

def pySplitChar (sep : Char) (s : String) : List String :=
  pySplitCharGo sep [] s.toList

/-- Python "sep".join of a list of strings with separator newline. -/
def joinNl : List String → String
  | [] => ""
  | [x] => x
  | x :: rest => x ++ "\n" ++ joinNl rest

/-- Right-pad with spaces to the given width (Python format spec :<w). -/
def padRight (s : String) (w : Nat) : String :=
  s ++ String.mk (List.replicate (w - s.length) ' ')

/-- Left-pad with spaces to the given width (Python format spec :>w). -/
def padLeft (s : String) (w : Nat) : String :=
  String.mk (List.replicate (w - s.length) ' ') ++ s

/-- Replace every occurrence of one character by another (the Python
str.replace calls in board rendering replace single characters). -/
def replaceChar (a b : Char) : List Char → List Char
  | [] => []
  | c :: rest => (if c == a then b else c) :: replaceChar a b rest

/-- Append a string to the line at the given index; out-of-range indices
leave the list unchanged (unreachable for the fixed 8-line board text). -/
def appendAtLine (i : Nat) (extra : String) : List String → List String
  | [] => []
  | x :: rest =>
    match i with
    | 0 => (x ++ extra) :: rest
    | n + 1 => x :: appendAtLine n extra rest

/-- Python str.capitalize(): first character uppercased, the rest lowercased. -/
def pyCapitalize (s : String) : String :=
  match s.toList with
  | [] => ""
  | c :: rest => String.mk (c.toUpper :: rest.map Char.toLower)

/-- Python str.upper(). -/
def pyUpper (s : String) : String :=
  String.mk (s.toList.map Char.toUpper)

/-- Python s[:n] slicing on strings (by characters). -/
def pyTake (n : Nat) (s : String) : String :=
  String.mk (s.toList.take n)

/-- Two uppercase hexadecimal digits of n mod 256. -/
def hexDigit (n : Nat) : Char :=
  if n < 10 then Char.ofNat (48 + n) else Char.ofNat (55 + n)

def hexByte (n : Nat) : String :=
  String.mk [hexDigit ((n % 256) / 16), hexDigit (n % 16)]

def isAsciiAlphaNum (c : Char) : Bool :=
  (65 ≤ c.toNat && c.toNat ≤ 90) || (97 ≤ c.toNat && c.toNat ≤ 122) ||
  (48 ≤ c.toNat && c.toNat ≤ 57)

/-- urllib.parse.quote_plus: alphanumerics and _.-~ kept, space becomes +,
anything else percent-encoded (single-byte encoding; the inputs used here,
piece placement strings, are plain ASCII). -/
def quotePlusChar (c : Char) : String :=
  if isAsciiAlphaNum c || c == '_' || c == '.' || c == '-' || c == '~' then
    String.mk [c]
  else if c == ' ' then "+"
  else "%" ++ hexByte c.toNat

def quotePlus (s : String) : String :=
  String.join (s.toList.map quotePlusChar)

/-! ## JSON values

A raw Lichess game record is an untyped nested JSON mapping. Arrays and
objects are given their own constructor spines (instead of nested List
fields) so that every function below is plain structural recursion that
the kernel can evaluate. -/

inductive JsonVal where
  | str (s : String)
  | num (n : Int)
  | boolv (b : Bool)
  | null
  | arrNil
  | arrCons (hd tl : JsonVal)
  | objNil
  | objCons (k : String) (v tl : JsonVal)
deriving DecidableEq, Repr

/-- Build an object spine from a key-value list. -/
def jobj : List (String × JsonVal) → JsonVal
  | [] => JsonVal.objNil
  | (k, v) :: rest => JsonVal.objCons k v (jobj rest)

/-- Build an array spine from a list. -/
def jarr : List JsonVal → JsonVal
  | [] => JsonVal.arrNil
  | v :: rest => JsonVal.arrCons v (jarr rest)

/-- Elements of an array spine as a list. -/
def arrToList : JsonVal → List JsonVal
  | JsonVal.arrCons h t => h :: arrToList t
  | _ => []

/-- Number of entries in an object spine (Python len of a dict). -/
def objLen : JsonVal → Nat
  | JsonVal.objCons _ _ t => objLen t + 1
  | _ => 0

/-- Python d[k] or d.get(k) access: the first binding of the key in an
object, none when the key is absent or the value is not an object. -/
def jlookup : JsonVal → String → Option JsonVal
  | JsonVal.objCons k v tl, key => if k == key then some v else jlookup tl key
  | _, _ => none

/-- Python truthiness of a JSON-decoded value. -/
def jsonTruthy : JsonVal → Bool
  | JsonVal.str s => s != ""
  | JsonVal.num n => n != 0
  | JsonVal.boolv b => b
  | JsonVal.null => false
  | JsonVal.arrNil => false
  | JsonVal.arrCons _ _ => true
  | JsonVal.objNil => false
  | JsonVal.objCons _ _ _ => true

def isObj : JsonVal → Bool
  | JsonVal.objNil => true
  | JsonVal.objCons _ _ _ => true
  | _ => false

/-- JSON string escaping as json.dumps performs it for the characters that
can occur here. -/
def jescapeChar (c : Char) : String :=
  if c == '"' then "\\\""
  else if c == '\\' then "\\\\"
  else if c == '\n' then "\\n"
  else if c == '\t' then "\\t"
  else String.mk [c]

def jescape (s : String) : String :=
  String.join (s.toList.map jescapeChar)

/-- json.dumps with the default separators. The nested cases peel the
leading bracket off the rendered tail to join elements with commas; the
tails of array and object spines built by jarr and jobj always render to
bracketed strings, so this reproduces the Python output on every record
the repository handles. -/
def dropFirstChar (s : String) : String :=
  String.mk (s.toList.drop 1)

def dumps : JsonVal → String
  | JsonVal.str s => "\"" ++ jescape s ++ "\""
  | JsonVal.num n => toString n
  | JsonVal.boolv b => if b then "true" else "false"
  | JsonVal.null => "null"
  | JsonVal.arrNil => "[]"
  | JsonVal.arrCons h JsonVal.arrNil => "[" ++ dumps h ++ "]"
  | JsonVal.arrCons h t => "[" ++ dumps h ++ ", " ++ dropFirstChar (dumps t)
  | JsonVal.objNil => "\x7b\x7d"
  | JsonVal.objCons k v JsonVal.objNil =>
    "\x7b\"" ++ jescape k ++ "\": " ++ dumps v ++ "\x7d"
  | JsonVal.objCons k v t =>
    "\x7b\"" ++ jescape k ++ "\": " ++ dumps v ++ ", " ++ dropFirstChar (dumps t)

/-! ## Typed data model (src/data_models.py) -/

/-- The Unicode piece symbols of data_models.py lines 9-10. -/
def WHITE_KING : Char := '♔'
def WHITE_QUEEN : Char := '♕'
def WHITE_ROOK : Char := '♖'
def WHITE_BISHOP : Char := '♗'
def WHITE_KNIGHT : Char := '♘'
def WHITE_PAWN : Char := '♙'
def BLACK_KING : Char := '♚'
def BLACK_QUEEN : Char := '♛'
def BLACK_ROOK : Char := '♜'
def BLACK_BISHOP : Char := '♝'
def BLACK_KNIGHT : Char := '♞'
def BLACK_PAWN : Char := '♟'

inductive Color where
  | white
  | black
deriving DecidableEq, Repr

/-- The .value attribute of the Color enum. -/
def Color.value : Color → String
  | Color.white => "white"
  | Color.black => "black"

structure Clock where
  initial : Int := -1
  increment : Int := -1
  total_time : Int := -1
deriving DecidableEq, Repr

/-- Division: phase boundary plies. The dataclass defaults both fields to
-1; the parser overwrites them with .get results, which are absent (none)
when the raw record has no such key, so the fields are optional here. -/
structure Division where
  middle : Option Int := some (-1)
  end_ : Option Int := some (-1)
deriving DecidableEq, Repr

/-- Opening info. The dataclass declares ply : int with default "" (a typo
in the source); the parser always overwrites it with .get("ply", 0), so it
is modelled as an Int defaulting to 0. -/
structure Opening where
  eco : String := ""
  name : String := ""
  ply : Int := 0
deriving DecidableEq, Repr

structure PlayerGameAnalysis where
  inaccuracy : Int := -1
  mistake : Int := -1
  blunder : Int := -1
  acpl : Int := -1
deriving DecidableEq, Repr

structure User where
  name : String := ""
  id : String := ""
deriving DecidableEq, Repr

structure Player where
  color : Color := Color.white
  user : User := {}
  rating : Int := -1
  rating_diff : Int := 0
  analysis : PlayerGameAnalysis := {}
deriving DecidableEq, Repr

structure Judgment where
  name : Option String := none
  comment : Option String := none
deriving DecidableEq, Repr

structure MoveAnalysis where
  eval : Option Int := none
  mate : Option Int := none
  best : Option String := none
  variation : Option String := none
  judgement : Option Judgment := none
deriving DecidableEq, Repr

/-- The custom MoveAnalysis dunder bool: present iff any field is set. -/
def MoveAnalysis.toBool (a : MoveAnalysis) : Bool :=
  a.eval.isSome || a.mate.isSome || a.best.isSome || a.variation.isSome ||
  a.judgement.isSome

structure Move where
  san : String := ""
  clock_centosec : Int := 0
  thinking_time_centoseconds : Int := 0
  analysis : MoveAnalysis := {}
deriving DecidableEq, Repr

/-- Rounding of r/10 to the nearest integer with ties to even, modelling
the %.1f formatting of the float remainder r/100 seconds. Exact halves in
binary floating point round half-to-even; remainders whose float image is
not exactly representable follow the hidden float bits in Python, which
this integer model approximates by exact half-to-even. No claim depends on
the formatted digits. -/
def roundTenths (r : Nat) : Nat :=
  let t := r / 10
  let d := r % 10
  if d > 5 then t + 1
  else if d < 5 then t
  else if t % 2 == 0 then t else t + 1

/-- Move._centoseconds_to_timestr: value in hundredths of a second to
"H:MM:SS.s" with the hours segment omitted when not positive. Python
computes floor divisions on floats; on integer centiseconds those agree
with the exact floor divisions used here. -/
def centoseconds_to_timestr (value : Int) : String :=
  let hours : Int := Int.fdiv value 360000
  let minutes : Int := Int.fdiv (Int.fmod value 360000) 6000
  let rem : Nat := (Int.fmod value 6000).toNat
  let tenths : Nat := roundTenths rem
  let secStr : String :=
    (if tenths / 10 < 10 then "0" else "") ++ toString (tenths / 10) ++ "." ++
      toString (tenths % 10)
  let minStr : String :=
    (if minutes < 10 then "0" else "") ++ toString minutes
  (if hours > 0 then toString hours ++ ":" else "") ++ minStr ++ ":" ++ secStr

/-- The Move.clock property. -/
def Move.clock (m : Move) : String :=
  centoseconds_to_timestr m.clock_centosec

/-- The Move.thinking_time property. -/
def Move.thinking_time (m : Move) : String :=
  centoseconds_to_timestr m.thinking_time_centoseconds

/-- str(eval / 100) for an integer eval: Python true division produces a
float whose repr is the exact decimal with trailing zeros trimmed but at
least one fractional digit (exact for the two-decimal magnitudes produced
by centipawn values). -/
def strOfDiv100 (n : Int) : String :=
  let a := n.natAbs
  let sign := if n < 0 then "-" else ""
  let whole := toString (a / 100)
  let frac := a % 100
  let fracStr :=
    if frac == 0 then "0"
    else if frac % 10 == 0 then toString (frac / 10)
    else (if frac < 10 then "0" else "") ++ toString frac
  sign ++ whole ++ "." ++ fracStr

/-- Move.format_evaluation (data_models.py lines 104-113): a mate count
renders as " #N"; otherwise a present eval renders as str(eval/100) with a
leading space added only when the string does not start with "-"; an
annotation record that is truthy but has neither field gives "". -/
def format_evaluation (m : Move) : String :=
  if m.analysis.toBool then
    match m.analysis.mate with
    | some mt => " #" ++ toString mt
    | none =>
      match m.analysis.eval with
      | some ev =>
        let out := strOfDiv100 ev
        if charsBeginWith "-".toList out.toList then out
        else " " ++ out
      | none => ""
  else ""

/-- Move.get_decorated_move (data_models.py lines 115-124): the raw SAN
with a suffix appended per judgment name; the three name tests are
sequential independent if statements in the source. -/
def get_decorated_move (m : Move) : String :=
  match m.analysis.judgement with
  | none => m.san
  | some j =>
    let out := m.san
    let out := if j.name == some "Inaccuracy" then out ++ "?!" else out
    let out := if j.name == some "Mistake" then out ++ "?" else out
    let out := if j.name == some "Blunder" then out ++ "??" else out
    out

structure Game where
  id : String := ""
  rated : Bool := true
  variant : String := ""
  speed : String := ""
  perf : String := ""
  created_at : Int := -1
  last_move_at : Int := -1
  status : String := ""
  source : String := ""
  players : List Player := []
  winner : Option Color := none
  moves : List (Move × Option Move) := []
  clock : Clock := {}
  division : Division := {}
  opening : Opening := {}
  has_analysis : Bool := false
deriving DecidableEq, Repr

/-! ## Board replay (external rules engine modelled as a collaborator) -/

/-- The slice of the python-chess Board the renderer consumes: str(board),
board.board_fen(), and board.move_stack (as UCI strings). -/
structure Board where
  placement : String
  board_fen : String
  moveStack : List String
deriving DecidableEq, Repr

/-- The external push_san collaborator: push one SAN move onto a board,
failing (none) on an illegal or unparsable move. -/
def PushSan : Type := Board → String → Option Board

/-- chess.Board of the standard initial position: str(board) and
board.board_fen() of python-chess on the start position constant of
data_models.py line 155. -/
def initial_board : Board :=
  { placement :=
      "r n b q k b n r\n" ++
      "p p p p p p p p\n" ++
      ". . . . . . . .\n" ++
      ". . . . . . . .\n" ++
      ". . . . . . . .\n" ++
      ". . . . . . . .\n" ++
      "P P P P P P P P\n" ++
      "R N B Q K B N R"
    board_fen := "rnbqkbnr/pppppppp/8/8/8/8/PPPPPPPP/RNBQKBNR"
    moveStack := [] }

/-- The replay loop of Game.board_at_end lines 157-160: push the white
move of every pair, then the black move when present. -/
def pushAllMoves (push : PushSan) : Board → List (Move × Option Move) → Option Board
  | b, [] => some b
  | b, (mw, mb) :: rest =>
    match push b mw.san with
    | none => none
    | some b1 =>
      match mb with
      | some m =>
        match push b1 m.san with
        | none => none
        | some b2 => pushAllMoves push b2 rest
      | none => pushAllMoves push b1 rest

/-- The twelve str.replace calls of lines 163-175. -/
def unicodeReplaceAll (s : String) : String :=
  let cs := s.toList
  let cs := replaceChar 'k' BLACK_KING cs
  let cs := replaceChar 'q' BLACK_QUEEN cs
  let cs := replaceChar 'r' BLACK_ROOK cs
  let cs := replaceChar 'b' BLACK_BISHOP cs
  let cs := replaceChar 'n' BLACK_KNIGHT cs
  let cs := replaceChar 'p' BLACK_PAWN cs
  let cs := replaceChar 'K' WHITE_KING cs
  let cs := replaceChar 'Q' WHITE_QUEEN cs
  let cs := replaceChar 'R' WHITE_ROOK cs
  let cs := replaceChar 'B' WHITE_BISHOP cs
  let cs := replaceChar 'N' WHITE_KNIGHT cs
  let cs := replaceChar 'P' WHITE_PAWN cs
  String.mk cs

/-- Game.board_at_end (data_models.py lines 154-181): replay all moves
from the standard initial position, convert the board text to Unicode
symbols and attach the two-line colour legend. A push failure models the
IllegalMoveError raised by the engine. -/
def board_at_end (push : PushSan) (g : Game) : Option (Board × String) :=
  match pushAllMoves push initial_board g.moves with
  | none => none
  | some board =>
    let board_str := unicodeReplaceAll board.placement
    let board_lines := pySplitChar '\n' board_str
    let board_lines := appendAtLine 3 ("   " ++ String.mk [WHITE_PAWN] ++ ": white") board_lines
    let board_lines := appendAtLine 4 ("   " ++ String.mk [BLACK_PAWN] ++ ": black") board_lines
    some (board, joinNl board_lines)

/-! ## Report renderer (Game.to_console, data_models.py lines 183-295) -/

/-- The pretty_endings dict of lines 215-221; none models the KeyError a
lookup of any other status raises. -/
def pretty_endings (status : String) : Option String :=
  if status == "draw" then some "draw"
  else if status == "stalemate" then some "stalemate"
  else if status == "mate" then some "was checkmated"
  else if status == "resign" then some "resigned"
  else if status == "outoftime" then some "ran out of time"
  else none

/-- The score assignments of lines 213-214 and 223-232: both scores start
at the half symbol and are overwritten only inside the winner branch. -/
def score_strings (g : Game) : String × String :=
  let score_white := "½"
  let score_black := "½"
  match g.winner with
  | some Color.white => ("1", "0")
  | some Color.black => ("0", "1")
  | none => (score_white, score_black)

/-- The game_ending string of lines 223-235. With a winner present the
source indexes pretty_endings with the raw status (a KeyError, modelled as
none, when the status is unmapped); with no winner it interpolates the
capitalized status directly. -/
def game_ending (g : Game) : Option String :=
  match g.winner with
  | some w =>
    let winner_str := w.value
    let loser_str := if w == Color.white then Color.value Color.black
                     else Color.value Color.white
    match pretty_endings g.status with
    | none => none
    | some e => some (pyCapitalize winner_str ++ " wins: " ++ loser_str ++ " " ++ e)
  | none => some ("The game ended with a " ++ pyCapitalize g.status)

/-- Python truthiness of the parsed phase boundary values (if
self.division.middle). -/
def truthyInt : Option Int → Bool
  | none => false
  | some v => v != 0

/-- The middlegame and endgame lines of to_console lines 273-280: each
boundary renders only when truthy, with move number ply // 2 + 1 and side
black exactly when the ply value is even. -/
def phase_lines (d : Division) : String :=
  (match d.middle with
   | some v =>
     if v != 0 then
       "Middlegame started at move " ++ toString (Int.fdiv v 2 + 1) ++ " (" ++
         (if Int.fmod v 2 == 0 then "black" else "white") ++ ")\n"
     else ""
   | none => "") ++
  (match d.end_ with
   | some v =>
     if v != 0 then
       "Endgame started at move " ++ toString (Int.fdiv v 2 + 1) ++ " (" ++
         (if Int.fmod v 2 == 0 then "black" else "white") ++ ")\n"
     else ""
   | none => "")

/-- str(x) of an optional judgment comment: Python prints None for an
absent comment. -/
def commentStr : Option String → String
  | some s => s
  | none => "None"

/-- The move table loop of to_console lines 187-210, carried out with the
1-based move counter. A missing black move is replaced by a default Move
whose empty SAN makes the black clock render as spaces. -/
def moves_txt_go (ha : Bool) : Nat → List (Move × Option Move) → String
  | _, [] => ""
  | counter, (move_white, mbOpt) :: rest =>
    let move_black : Move := match mbOpt with
      | some b => b
      | none => {}
    let san_deco_white := get_decorated_move move_white
    let san_deco_black := get_decorated_move move_black
    let line := padLeft (toString counter) 3 ++ ". " ++ padRight san_deco_white 8 ++
      " " ++ padRight san_deco_black 8
    let clock_white := Move.clock move_white
    let clock_black :=
      if move_black.san != "" then Move.clock move_black
      else String.mk (List.replicate clock_white.toList.length ' ')
    let line := line ++ "   " ++ clock_white ++ "   " ++ clock_black
    let line := line ++
      (if ha then
        "   " ++ padRight (format_evaluation move_white) 6 ++ "  " ++
          padRight (format_evaluation move_black) 6 ++
          (match move_white.analysis.judgement with
           | some j => "   White: " ++ commentStr j.comment
           | none => "") ++
          (match move_black.analysis.judgement with
           | some j => "   Black: " ++ commentStr j.comment
           | none => "")
      else "")
    line ++ "\n" ++ moves_txt_go ha (counter + 1) rest

/-- Game.to_console (data_models.py lines 183-295). The result is none
exactly when the Python method raises: unpacking a players tuple that does
not have two entries, the pretty_endings KeyError, a push failure during
board replay, or indexing move_stack[-1] on an empty move stack. -/
def to_console (push : PushSan) (g : Game) : Option String :=
  match g.players with
  | [player_white, player_black] =>
    let moves_txt := moves_txt_go g.has_analysis 1 g.moves
    let (score_white, score_black) := score_strings g
    match game_ending g with
    | none => none
    | some ending =>
      let white_player_and_rating :=
        pyTake 25 player_white.user.name ++ " (" ++ toString player_white.rating ++ ")"
      let black_player_and_rating :=
        pyTake 25 player_black.user.name ++ " (" ++ toString player_black.rating ++ ")"
      let time_control :=
        toString (Int.fdiv g.clock.initial 60) ++ "+" ++ toString g.clock.increment
      let rated := if g.rated then "RATED" else "NOT RATED"
      let out := ""
      let out := out ++ "LICHESS.ORG · " ++ time_control ++ " · " ++ pyUpper g.speed ++
        " · " ++ rated ++ "\n"
      let out := out ++ "\n"
      let out := out ++ "WHITE: " ++ padRight white_player_and_rating 32 ++ " BLACK: " ++
        black_player_and_rating ++ "\n"
      let out := out ++ "  Score..............: " ++ score_white ++
        "                  Score..............: " ++ score_black ++ "\n"
      let out := out ++ "  Rating change......: " ++
        padRight (toString player_white.rating_diff) 3 ++
        "                Rating change......: " ++ toString player_black.rating_diff ++ "\n"
      let out := out ++
        (if g.has_analysis then
          "  Inaccuracies.......: " ++ padRight (toString player_white.analysis.inaccuracy) 3 ++
            "                Inaccuracies.......: " ++ toString player_black.analysis.inaccuracy ++ "\n" ++
          "  Mistakes...........: " ++ padRight (toString player_white.analysis.mistake) 3 ++
            "                Mistakes...........: " ++ toString player_black.analysis.mistake ++ "\n" ++
          "  Blunders...........: " ++ padRight (toString player_white.analysis.blunder) 3 ++
            "                Blunders...........: " ++ toString player_black.analysis.blunder ++ "\n" ++
          "  AvgLostCentiPawns..: " ++ padRight (toString player_white.analysis.acpl) 3 ++
            "                AvgLostCentiPawns..: " ++ toString player_black.analysis.acpl ++ "\n"
        else "\nThis game has not been analyzed, so analysis data is unavailable.\n")
      let out := out ++ "\n"
      let out := out ++ "Opening: [" ++ g.opening.eco ++ "] " ++ g.opening.name ++ "\n\n"
      let out := out ++ moves_txt ++ "\n"
      let out := out ++ "*** " ++ ending ++ " ***" ++ "\n"
      let out := out ++ "\n"
      let out := out ++ phase_lines g.division
      match board_at_end push g with
      | none => none
      | some (board, board_unicode) =>
        match board.moveStack.getLast? with
        | none => none
        | some last_move_uci =>
          let board_gif_url := "GIF: https://lichess.org/export/fen.gif?fen=" ++
            quotePlus board.board_fen ++ "&lastMove=" ++ last_move_uci
          let out := out ++ "\nFinal position:\n"
          let out := out ++ board_unicode ++ "   " ++ board_gif_url ++ "\n"
          let out := out ++ "\n"
          let out := out ++ "Game URL: https://lichess.org/" ++ g.id ++ "\n"
          let out := out ++ "\n"
          some out
  | _ => none

/-! ## Record parser (src/game_exporter.py, create_game_from_json)

Fallible Python operations return Except String; an error value models the
exception (KeyError, IndexError, TypeError, AttributeError) the Python
statement raises, and the parser succeeds exactly when the source does:
key accesses check presence only, the clocks value is subscripted with
Python list/str/dict semantics, and arithmetic is demanded only where the
source subtracts. The source stores subscript results and player fields
untyped in its dataclasses; where such a raw value is ill-typed for the
declared dataclass field (a non-integer rating, a non-string name, a
non-numeric clock sample that is never subtracted), this typed embedding
stores the dataclass default instead while still succeeding — the source
can only observe such values by crashing later in rendering, which no
statement here inspects. -/

/-- Hard dict access d[k] followed by use as a mapping. -/
def getObjKey (j : JsonVal) (k : String) : Except String JsonVal :=
  match jlookup j k with
  | some v => if isObj v then Except.ok v else Except.error ("TypeError: " ++ k)
  | none => Except.error ("KeyError: " ++ k)

/-- Hard dict access d[k] of a string value. -/
def getStrKey (j : JsonVal) (k : String) : Except String String :=
  match jlookup j k with
  | some (JsonVal.str s) => Except.ok s
  | some _ => Except.error ("TypeError: " ++ k)
  | none => Except.error ("KeyError: " ++ k)

/-- Hard dict access d[k] with no constraint on the value: KeyError when
the key is absent; subscripting a non-mapping with a string key raises
TypeError in Python and is conflated into the same failure (jlookup is
none for non-mappings). The raw value is returned untyped, as line 79 and
lines 47-51 of the source store it. -/
def getKey (j : JsonVal) (k : String) : Except String JsonVal :=
  match jlookup j k with
  | some v => Except.ok v
  | none => Except.error ("KeyError: " ++ k)

/-- Storage coercion for a raw value kept in a string-typed dataclass
field: the source stores the raw value unchecked, so an ill-typed value
collapses to the default here (see the section comment). -/
def strD (v : JsonVal) (d : String) : String :=
  match v with
  | JsonVal.str s => s
  | _ => d

/-- Storage coercion for a raw value kept in an integer-typed dataclass
field (see the section comment). -/
def numD (v : JsonVal) (d : Int) : Int :=
  match v with
  | JsonVal.num n => n
  | _ => d

/-- Python value[i] with an integer subscript: a list yields its element
(of any type) and a string its character, IndexError out of range; a
JSON-decoded mapping has only string keys, so an integer subscript is a
KeyError; any other value is not subscriptable (TypeError). -/
def pyIndex : JsonVal → Nat → Except String JsonVal
  | JsonVal.arrCons h t, i =>
    (match (arrToList (JsonVal.arrCons h t))[i]? with
     | some e => Except.ok e
     | none => Except.error "IndexError: list index out of range")
  | JsonVal.arrNil, _ => Except.error "IndexError: list index out of range"
  | JsonVal.str s, i =>
    if i < s.length then Except.ok (JsonVal.str (String.mk [s.toList.getD i ' ']))
    else Except.error "IndexError: string index out of range"
  | JsonVal.objNil, _ => Except.error "KeyError: integer key"
  | JsonVal.objCons _ _ _, _ => Except.error "KeyError: integer key"
  | JsonVal.num _, _ => Except.error "TypeError: not subscriptable"
  | JsonVal.boolv _, _ => Except.error "TypeError: not subscriptable"
  | JsonVal.null, _ => Except.error "TypeError: not subscriptable"

/-- Python integer arithmetic on a decoded JSON value: numbers are ints,
booleans are the ints 1 and 0; anything else cannot be subtracted. -/
def asArith : JsonVal → Except String Int
  | JsonVal.num n => Except.ok n
  | JsonVal.boolv b => Except.ok (if b then 1 else 0)
  | _ => Except.error "TypeError: unsupported operand"

/-- The stored clock sample of line 102: the raw subscript result,
collapsed to the typed field (see the section comment; the source renders
a non-arithmetic sample only by crashing in the clock formatter). -/
def arithD (v : JsonVal) : Int :=
  match v with
  | JsonVal.num n => n
  | JsonVal.boolv b => if b then 1 else 0
  | _ => 0

/-- Soft access d.get(k, default) of a string-typed field. -/
def jStrD (j : JsonVal) (k : String) (d : String) : String :=
  match jlookup j k with
  | some (JsonVal.str s) => s
  | _ => d

/-- Soft access d.get(k, default) of an integer-typed field. -/
def jIntD (j : JsonVal) (k : String) (d : Int) : Int :=
  match jlookup j k with
  | some (JsonVal.num n) => n
  | _ => d

/-- Soft access d.get(k) of an integer-typed field with no default. -/
def jIntOpt (j : JsonVal) (k : String) : Option Int :=
  match jlookup j k with
  | some (JsonVal.num n) => some n
  | _ => none

/-- Soft access whose stored value is only ever used for truthiness
(the rated flag): absent defaults to true. -/
def jTruthyD (j : JsonVal) (k : String) : Bool :=
  match jlookup j k with
  | some v => jsonTruthy v
  | none => true

/-- A raw analysis value as an optional Int field of MoveAnalysis. -/
def jAsInt : Option JsonVal → Option Int
  | some (JsonVal.num n) => some n
  | _ => none

/-- A raw analysis value as an optional String field. -/
def jAsStr : Option JsonVal → Option String
  | some (JsonVal.str s) => some s
  | _ => none

/-- A raw judgment name or comment as an optional String. -/
def jAsStrVal : JsonVal → Option String
  | JsonVal.str s => some s
  | _ => none

/-- Line 29: if "analysis" in json.dumps(json_game). -/
def hasAnalysisSubstr (j : JsonVal) : Bool :=
  charsContain "analysis".toList (dumps j).toList

/-- Lines 36-43 and 56-63: the per-player analysis summary. With the
analysis flag set, json_player.get("analysis", {}) must support .get (so
a present non-mapping value raises AttributeError), and each counter
defaults to -1; with the flag unset the summary is all defaults. -/
def parsePlayerAnalysis (p : JsonVal) (ha : Bool) : Except String PlayerGameAnalysis :=
  if ha then
    match jlookup p "analysis" with
    | none => Except.ok ({} : PlayerGameAnalysis)
    | some a =>
      if isObj a then
        Except.ok { inaccuracy := jIntD a "inaccuracy" (-1),
                    mistake := jIntD a "mistake" (-1),
                    blunder := jIntD a "blunder" (-1),
                    acpl := jIntD a "acpl" (-1) : PlayerGameAnalysis }
      else Except.error "AttributeError: get"
  else Except.ok ({} : PlayerGameAnalysis)

/-- Lines 35-73 for one side: json_game["players"][side] with the
analysis summary (soft, defaulting to -1) when the analysis flag is set,
the mandatory user mapping with name and id keys, and the mandatory
rating and ratingDiff keys. The players, side and user values must be
mappings (the source subscripts them with string keys); the name, id,
rating and ratingDiff values are stored untyped by the source, so only
their presence is checked here and ill-typed values collapse to the
dataclass defaults (see the section comment). -/
def parsePlayerSide (j : JsonVal) (side : String) (color : Color) (ha : Bool) :
    Except String Player :=
  match getObjKey j "players" with
  | Except.error e => Except.error e
  | Except.ok pjs =>
  match getObjKey pjs side with
  | Except.error e => Except.error e
  | Except.ok p =>
  match parsePlayerAnalysis p ha with
  | Except.error e => Except.error e
  | Except.ok pga =>
  match getObjKey p "user" with
  | Except.error e => Except.error e
  | Except.ok u =>
  match getKey u "name" with
  | Except.error e => Except.error e
  | Except.ok uname =>
  match getKey u "id" with
  | Except.error e => Except.error e
  | Except.ok uid =>
  match getKey p "rating" with
  | Except.error e => Except.error e
  | Except.ok rating =>
  match getKey p "ratingDiff" with
  | Except.error e => Except.error e
  | Except.ok rating_diff =>
  Except.ok { color := color,
              user := { name := strD uname "", id := strD uid "" },
              rating := numD rating (-1), rating_diff := numD rating_diff 0,
              analysis := pga }

/-- Line 86: moves_clocks[idx] - moves_clocks[idx - 2] if idx >= 2 else 0.
Both subscripts are evaluated with Python indexing semantics and the
subtraction then demands arithmetic operands; below ply index 2 nothing is
accessed and the stored time is 0. -/
def computeThinking (clocks : JsonVal) (idx : Nat) : Except String Int :=
  if idx ≥ 2 then
    match pyIndex clocks idx with
    | Except.error e => Except.error e
    | Except.ok a =>
    match pyIndex clocks (idx - 2) with
    | Except.error e => Except.error e
    | Except.ok b =>
    match asArith a with
    | Except.error e => Except.error e
    | Except.ok c1 =>
    match asArith b with
    | Except.error e => Except.error e
    | Except.ok c0 => Except.ok (c1 - c0)
  else Except.ok 0

/-- One entry of the analysis array (lines 89-98): must be a mapping; the
judgment sub-object maps to a Judgment only when truthy, and then its name
and comment keys are indexed hard. -/
def parseEntry (v : JsonVal) : Except String MoveAnalysis :=
  if isObj v then
    let base : MoveAnalysis :=
      { eval := jAsInt (jlookup v "eval"), mate := jAsInt (jlookup v "mate"),
        best := jAsStr (jlookup v "best"), variation := jAsStr (jlookup v "variation"),
        judgement := none }
    match jlookup v "judgment" with
    | some jv =>
      if jsonTruthy jv then
        match jlookup jv "name" with
        | none => Except.error "KeyError: name"
        | some nm =>
          match jlookup jv "comment" with
          | none => Except.error "KeyError: comment"
          | some cm =>
            Except.ok { base with judgement := some { name := jAsStrVal nm,
                                                      comment := jAsStrVal cm } }
      else Except.ok base
    | none => Except.ok base
  else Except.error "AttributeError: get"

/-- Line 88: if game.has_analysis and idx < len(moves_analyses). When the
flag is set the raw analysis value must support len: a missing value is
the len(None) TypeError; an array is indexed when idx is in range; a
string or mapping supports len but raises on integer indexing, so it
fails exactly when idx is below its length. -/
def computeAnalysis (ha : Bool) (analyses : Option JsonVal) (idx : Nat) :
    Except String MoveAnalysis :=
  if ha then
    match analyses with
    | none => Except.error "TypeError: len of None"
    | some v =>
      match v with
      | JsonVal.arrNil =>
        match (arrToList JsonVal.arrNil)[idx]? with
        | some entry => parseEntry entry
        | none => Except.ok ({} : MoveAnalysis)
      | JsonVal.arrCons h t =>
        match (arrToList (JsonVal.arrCons h t))[idx]? with
        | some entry => parseEntry entry
        | none => Except.ok ({} : MoveAnalysis)
      | JsonVal.str s =>
        if idx < s.length then Except.error "TypeError: str index"
        else Except.ok ({} : MoveAnalysis)
      | JsonVal.objNil => Except.ok ({} : MoveAnalysis)
      | JsonVal.objCons k w t =>
        if idx < objLen (JsonVal.objCons k w t) then Except.error "KeyError: int key"
        else Except.ok ({} : MoveAnalysis)
      | _ => Except.error "TypeError: len"
  else Except.ok ({} : MoveAnalysis)

/-- The pairing loop of lines 82-115. The Python color flag is white
exactly when the pending white move is unset, so the loop state is the
pending move alone: a white ply is held pending, a black ply closes the
pair, and a pending move left at the end becomes the final (white, None)
pair. -/
def buildMovesGo (ha : Bool) (clocks : JsonVal) (analyses : Option JsonVal) :
    List String → Nat → Option Move → Except String (List (Move × Option Move))
  | [], _, pending =>
    Except.ok (match pending with
               | some w => [(w, none)]
               | none => [])
  | move_san :: rest, idx, pending =>
    match computeThinking clocks idx with
    | Except.error e => Except.error e
    | Except.ok thinking_time_cs =>
    match computeAnalysis ha analyses idx with
    | Except.error e => Except.error e
    | Except.ok move_analysis =>
    match pyIndex clocks idx with
    | Except.error e => Except.error e
    | Except.ok clk =>
    let move : Move := { san := move_san, clock_centosec := arithD clk,
                         thinking_time_centoseconds := thinking_time_cs,
                         analysis := move_analysis }
    match pending with
    | none => buildMovesGo ha clocks analyses rest (idx + 1) (some move)
    | some move_white =>
      match buildMovesGo ha clocks analyses rest (idx + 1) none with
      | Except.error e => Except.error e
      | Except.ok ms => Except.ok ((move_white, some move) :: ms)

def buildMoves (ha : Bool) (clocks : JsonVal) (analyses : Option JsonVal)
    (sans : List String) : Except String (List (Move × Option Move)) :=
  buildMovesGo ha clocks analyses sans 0 none

/-- Lines 149-153: the winner field maps to a color only on an exact
string match, anything else (absent, empty, other casing, other type)
leaves the winner unset. -/
def parseWinner (j : JsonVal) : Option Color :=
  match jlookup j "winner" with
  | some (JsonVal.str s) =>
    if s == "white" then some Color.white
    else if s == "black" then some Color.black
    else none
  | _ => none

/-- The ply list of a record: json_game["moves"].split(" ") (line 78); the
empty list stands in for records whose moves key is absent or not a
string, on which the parser fails anyway. -/
def pliesOf (j : JsonVal) : List String :=
  match jlookup j "moves" with
  | some (JsonVal.str s) => pySplitChar ' ' s
  | _ => []

/-- The raw clocks value of a record (line 79 stores it untyped); null
stands in for records whose clocks key is absent, on which the parser
fails anyway. -/
def clocksOf (j : JsonVal) : JsonVal :=
  match jlookup j "clocks" with
  | some v => v
  | none => JsonVal.null

/-- create_game_from_json (game_exporter.py lines 27-155). -/
def create_game_from_json (j : JsonVal) : Except String Game :=
  match parsePlayerSide j "white" Color.white (hasAnalysisSubstr j) with
  | Except.error e => Except.error e
  | Except.ok player_white =>
  match parsePlayerSide j "black" Color.black (hasAnalysisSubstr j) with
  | Except.error e => Except.error e
  | Except.ok player_black =>
  match getStrKey j "moves" with
  | Except.error e => Except.error e
  | Except.ok movesStr =>
  match getKey j "clocks" with
  | Except.error e => Except.error e
  | Except.ok moves_clocks =>
  match buildMoves (hasAnalysisSubstr j) moves_clocks (jlookup j "analysis")
      (pySplitChar ' ' movesStr) with
  | Except.error e => Except.error e
  | Except.ok moves =>
  match getObjKey j "opening" with
  | Except.error e => Except.error e
  | Except.ok op =>
  match getObjKey j "clock" with
  | Except.error e => Except.error e
  | Except.ok ck =>
  match getObjKey j "division" with
  | Except.error e => Except.error e
  | Except.ok dv =>
  Except.ok
    { id := jStrD j "id" "N/A"
      rated := jTruthyD j "rated"
      variant := jStrD j "variant" "N/A"
      speed := jStrD j "speed" "N/A"
      status := jStrD j "status" "N/A"
      players := [player_white, player_black]
      winner := parseWinner j
      moves := moves
      clock := { initial := jIntD ck "initial" (-1),
                 increment := jIntD ck "increment" (-1),
                 total_time := jIntD ck "totalTime" (-1) }
      division := { middle := jIntOpt dv "middle", end_ := jIntOpt dv "end" }
      opening := { eco := jStrD op "eco" "", name := jStrD op "name" "",
                   ply := jIntD op "ply" 0 }
      has_analysis := hasAnalysisSubstr j }

/-- isOk of an Except value. -/
def excIsOk : Except String α → Bool
  | Except.ok _ => true
  | Except.error _ => false

/-- The value of a successful Except. -/
def excToOpt : Except String α → Option α
  | Except.ok a => some a
  | Except.error _ => none

/-- The plies of a move-pair list, in playing order. -/
def plyList : List (Move × Option Move) → List Move
  | [] => []
  | (w, none) :: rest => w :: plyList rest
  | (w, some b) :: rest => w :: b :: plyList rest

/-- Whether the final pair of a move-pair list has no black move; false
for the empty list. -/
def lastBlackAbsent : List (Move × Option Move) → Bool
  | [] => false
  | [(_, b)] => b.isNone
  | _ :: p :: rest => lastBlackAbsent (p :: rest)

/-! ## Structural description of the mandatory record shape

These predicates restate, directly on the raw record, which structure the
parser accesses unconditionally; the characterization theorem for claim C6
proves that parsing succeeds exactly on records satisfying them. -/

def hasStrAt (j : JsonVal) (k : String) : Bool :=
  match jlookup j k with
  | some (JsonVal.str _) => true
  | _ => false

def hasKeyAt (j : JsonVal) (k : String) : Bool :=
  (jlookup j k).isSome

def hasObjAt (j : JsonVal) (k : String) : Bool :=
  match jlookup j k with
  | some v => isObj v
  | none => false

/-- The value supports Python integer subscripting at index i: a long
enough list or string (a mapping or scalar never does). -/
def canIndexAt (v : JsonVal) (i : Nat) : Bool :=
  match v with
  | JsonVal.arrCons h t => decide (i < (arrToList (JsonVal.arrCons h t)).length)
  | JsonVal.str s => decide (i < s.length)
  | _ => false

/-- The value is usable as an integer in Python arithmetic. -/
def isArithVal : JsonVal → Bool
  | JsonVal.num _ => true
  | JsonVal.boolv _ => true
  | _ => false

/-- Subscripting the value at index i succeeds and yields an arithmetic
operand: only a list element that is a number or boolean qualifies (a
string character never subtracts). -/
def arithAt (v : JsonVal) (i : Nat) : Bool :=
  match v with
  | JsonVal.arrCons h t =>
    (match (arrToList (JsonVal.arrCons h t))[i]? with
     | some e => isArithVal e
     | none => false)
  | _ => false

/-- The sub-value at a key, or null when absent (used only to navigate to
positions whose presence is asserted separately). -/
def jsub (j : JsonVal) (k : String) : JsonVal :=
  (jlookup j k).getD JsonVal.null

/-- The shape the per-player analysis value must have when the analysis
flag is set: absent or a mapping. -/
def playerAnalysisOk (p : JsonVal) (ha : Bool) : Bool :=
  if ha then
    match jlookup p "analysis" with
    | none => true
    | some a => isObj a
  else true

/-- The structure one side of the players block must have: the nested
values that get subscripted with string keys must be mappings, while the
leaf fields (name, id, rating, ratingDiff) need only be present, since
the source stores their values without type checks. -/
def playerOk (j : JsonVal) (side : String) (ha : Bool) : Bool :=
  hasObjAt j "players" &&
  hasObjAt (jsub j "players") side &&
  playerAnalysisOk (jsub (jsub j "players") side) ha &&
  hasObjAt (jsub (jsub j "players") side) "user" &&
  hasKeyAt (jsub (jsub (jsub j "players") side) "user") "name" &&
  hasKeyAt (jsub (jsub (jsub j "players") side) "user") "id" &&
  hasKeyAt (jsub (jsub j "players") side) "rating" &&
  hasKeyAt (jsub (jsub j "players") side) "ratingDiff"

/-- The structure one per-ply analysis entry must have. -/
def entryOk (v : JsonVal) : Bool :=
  isObj v &&
  (match jlookup v "judgment" with
   | some jv =>
     if jsonTruthy jv then (jlookup jv "name").isSome && (jlookup jv "comment").isSome
     else true
   | none => true)

/-- The analysis structure the loop body needs at ply index idx when the
analysis flag is set. -/
def stepAnalysisOk (ha : Bool) (analyses : Option JsonVal) (idx : Nat) : Bool :=
  if ha then
    match analyses with
    | none => false
    | some v =>
      match v with
      | JsonVal.arrNil =>
        (match (arrToList JsonVal.arrNil)[idx]? with
         | some e => entryOk e
         | none => true)
      | JsonVal.arrCons h t =>
        (match (arrToList (JsonVal.arrCons h t))[idx]? with
         | some e => entryOk e
         | none => true)
      | JsonVal.str s => decide (s.length ≤ idx)
      | JsonVal.objNil => true
      | JsonVal.objCons k w t => decide (objLen (JsonVal.objCons k w t) ≤ idx)
      | _ => false
  else true

/-- The per-step conditions of the move-building loop, starting at ply
index idx: from ply 2 on the subtracted samples must be arithmetic list
elements, the per-ply analysis entry must be well-formed when the flag is
set, and the sample at the current ply need only be subscriptable. -/
def buildMovesOk (ha : Bool) (clocks : JsonVal) (analyses : Option JsonVal) :
    List String → Nat → Bool
  | [], _ => true
  | _ :: rest, idx =>
    (decide (idx < 2) || (arithAt clocks idx && arithAt clocks (idx - 2))) &&
    stepAnalysisOk ha analyses idx &&
    canIndexAt clocks idx &&
    buildMovesOk ha clocks analyses rest (idx + 1)

/-- The full mandatory structure of a raw record. -/
def mandatoryOk (j : JsonVal) : Bool :=
  playerOk j "white" (hasAnalysisSubstr j) &&
  playerOk j "black" (hasAnalysisSubstr j) &&
  hasStrAt j "moves" && hasKeyAt j "clocks" &&
  buildMovesOk (hasAnalysisSubstr j) (clocksOf j) (jlookup j "analysis") (pliesOf j) 0 &&
  hasObjAt j "opening" && hasObjAt j "clock" && hasObjAt j "division"

/-! ## Sample raw records and games used by witnesses and counterexamples -/

/-- A players block with clean names (no analysis fields and no analysis
substring). -/
def samplePlayers : String × JsonVal :=
  ("players", jobj
    [("white", jobj [("user", jobj [("name", JsonVal.str "alice"),
                                    ("id", JsonVal.str "alice")]),
                     ("rating", JsonVal.num 1500), ("ratingDiff", JsonVal.num 8)]),
     ("black", jobj [("user", jobj [("name", JsonVal.str "bob"),
                                    ("id", JsonVal.str "bob")]),
                     ("rating", JsonVal.num 1480), ("ratingDiff", JsonVal.num (-8))])])

/-- A complete well-formed raw record with no analysis anywhere: three
plies, clock samples 300.00s, 300.00s, 280.00s. -/
def exThinking : JsonVal := jobj
  [("id", JsonVal.str "abcd1234"),
   samplePlayers,
   ("moves", JsonVal.str "e4 e5 Nf3"),
   ("clocks", jarr [JsonVal.num 30000, JsonVal.num 30000, JsonVal.num 28000]),
   ("opening", jobj [("eco", JsonVal.str "C20"), ("name", JsonVal.str "Open Game"),
                     ("ply", JsonVal.num 2)]),
   ("clock", jobj [("initial", JsonVal.num 300), ("increment", JsonVal.num 0),
                   ("totalTime", JsonVal.num 300)]),
   ("division", jobj []),
   ("status", JsonVal.str "resign"),
   ("winner", JsonVal.str "white"),
   ("speed", JsonVal.str "blitz"),
   ("rated", JsonVal.boolv true)]

/-- A record with engine analysis: four plies, per-ply analysis entries,
a judgment on the last ply, and per-player analysis summaries. -/
def exAnalysis : JsonVal := jobj
  [("id", JsonVal.str "wxyz9876"),
   ("players", jobj
     [("white", jobj [("user", jobj [("name", JsonVal.str "alice"),
                                     ("id", JsonVal.str "alice")]),
                      ("rating", JsonVal.num 1500), ("ratingDiff", JsonVal.num 8),
                      ("analysis", jobj [("inaccuracy", JsonVal.num 0),
                                         ("mistake", JsonVal.num 0),
                                         ("blunder", JsonVal.num 0),
                                         ("acpl", JsonVal.num 12)])]),
      ("black", jobj [("user", jobj [("name", JsonVal.str "bob"),
                                     ("id", JsonVal.str "bob")]),
                      ("rating", JsonVal.num 1480), ("ratingDiff", JsonVal.num (-8)),
                      ("analysis", jobj [("inaccuracy", JsonVal.num 1),
                                         ("mistake", JsonVal.num 1),
                                         ("blunder", JsonVal.num 0),
                                         ("acpl", JsonVal.num 45)])])]),
   ("moves", JsonVal.str "e4 e5 Nf3 Nc6"),
   ("clocks", jarr [JsonVal.num 30000, JsonVal.num 30000, JsonVal.num 28000,
                    JsonVal.num 29500]),
   ("analysis", jarr
     [jobj [("eval", JsonVal.num 20)],
      jobj [("eval", JsonVal.num 25)],
      jobj [("eval", JsonVal.num 18)],
      jobj [("eval", JsonVal.num 95),
            ("judgment", jobj [("name", JsonVal.str "Mistake"),
                               ("comment", JsonVal.str "Better was d5.")])]]),
   ("opening", jobj [("eco", JsonVal.str "C44"), ("name", JsonVal.str "Open Game"),
                     ("ply", JsonVal.num 4)]),
   ("clock", jobj [("initial", JsonVal.num 300), ("increment", JsonVal.num 0),
                   ("totalTime", JsonVal.num 300)]),
   ("division", jobj [("middle", JsonVal.num 40)]),
   ("status", JsonVal.str "resign"),
   ("winner", JsonVal.str "white"),
   ("speed", JsonVal.str "blitz"),
   ("rated", JsonVal.boolv true)]

/-- A record with no analysis field anywhere whose white display name
happens to contain the word analysis. -/
def exFalsePositive : JsonVal := jobj
  [("id", JsonVal.str "abcd1234"),
   ("players", jobj
     [("white", jobj [("user", jobj [("name", JsonVal.str "analysisfan"),
                                     ("id", JsonVal.str "afan")]),
                      ("rating", JsonVal.num 1500), ("ratingDiff", JsonVal.num 8)]),
      ("black", jobj [("user", jobj [("name", JsonVal.str "bob"),
                                     ("id", JsonVal.str "bob")]),
                      ("rating", JsonVal.num 1480), ("ratingDiff", JsonVal.num (-8))])]),
   ("moves", JsonVal.str "e4 e5 Nf3"),
   ("clocks", jarr [JsonVal.num 30000, JsonVal.num 30000, JsonVal.num 28000]),
   ("opening", jobj [("eco", JsonVal.str "C20"), ("name", JsonVal.str "Open Game")]),
   ("clock", jobj [("initial", JsonVal.num 300), ("increment", JsonVal.num 0)]),
   ("division", jobj []),
   ("status", JsonVal.str "resign"),
   ("winner", JsonVal.str "white"),
   ("speed", JsonVal.str "blitz")]

/-- A record with players, moves and enough clock samples, but no opening
block. -/
def exNoOpening : JsonVal := jobj
  [("id", JsonVal.str "abcd1234"),
   samplePlayers,
   ("moves", JsonVal.str "e4 e5 Nf3"),
   ("clocks", jarr [JsonVal.num 30000, JsonVal.num 30000, JsonVal.num 28000]),
   ("clock", jobj [("initial", JsonVal.num 300), ("increment", JsonVal.num 0)]),
   ("division", jobj []),
   ("status", JsonVal.str "resign"),
   ("winner", JsonVal.str "white"),
   ("speed", JsonVal.str "blitz")]

/-- Two plain players for direct Game literals. -/
def samplePlayerWhite : Player :=
  { color := Color.white, user := { name := "alice", id := "alice" },
    rating := 1500, rating_diff := 8, analysis := {} }

def samplePlayerBlack : Player :=
  { color := Color.black, user := { name := "bob", id := "bob" },
    rating := 1480, rating_diff := -8, analysis := {} }

/-- A game record with zero moves and otherwise unremarkable fields. -/
def gameZeroMoves : Game :=
  { id := "abcd1234", rated := true, variant := "standard", speed := "blitz",
    status := "draw", players := [samplePlayerWhite, samplePlayerBlack],
    winner := none, moves := [],
    clock := { initial := 300, increment := 0, total_time := 300 },
    division := { middle := none, end_ := none },
    opening := { eco := "C20", name := "Open Game", ply := 2 },
    has_analysis := false }

/-- A push function for replays that never reach it (zero moves): it
records the move textually and leaves the position untouched. -/
def pushAny : PushSan := fun b s =>
  some { b with moveStack := b.moveStack ++ [s] }

/-- The Unicode diagram with legend that board_at_end produces for the
standard initial position. -/
def initialDiagram : String :=
  "♜ ♞ ♝ ♛ ♚ ♝ ♞ ♜\n" ++
  "♟ ♟ ♟ ♟ ♟ ♟ ♟ ♟\n" ++
  ". . . . . . . .\n" ++
  ". . . . . . . .   ♙: white\n" ++
  ". . . . . . . .   ♟: black\n" ++
  ". . . . . . . .\n" ++
  "♙ ♙ ♙ ♙ ♙ ♙ ♙ ♙\n" ++
  "♖ ♘ ♗ ♕ ♔ ♗ ♘ ♖"

/-- gameZeroMoves with a white winner by resignation. -/
def gameWhiteResign : Game :=
  { gameZeroMoves with winner := some Color.white, status := "resign" }

/-- gameZeroMoves with a white winner and an unmapped status code. -/
def gameCheatStatus : Game :=
  { gameZeroMoves with winner := some Color.white, status := "cheat" }

/-- gameZeroMoves with a black winner on time. -/
def gameBlackFlag : Game :=
  { gameZeroMoves with winner := some Color.black, status := "outoftime" }

/-- A move carrying a Mistake judgment. -/
def sampleMistakeMove : Move :=
  { san := "Nc6", clock_centosec := 29500, thinking_time_centoseconds := 0,
    analysis := { eval := some 95, mate := none, best := none, variation := none,
                  judgement := some { name := some "Mistake",
                                      comment := some "Better was d5." } } }

/-! ## Helper lemmas: success characterization of the parser -/

theorem getObjKey_isOk (j : JsonVal) (k : String) :
    excIsOk (getObjKey j k) = hasObjAt j k := by
  unfold getObjKey hasObjAt
  cases h : jlookup j k with
  | none => rfl
  | some v => cases hv : isObj v <;> simp [hv, excIsOk]

theorem getStrKey_isOk (j : JsonVal) (k : String) :
    excIsOk (getStrKey j k) = hasStrAt j k := by
  unfold getStrKey hasStrAt
  cases h : jlookup j k with
  | none => rfl
  | some v => cases v <;> rfl

theorem getKey_isOk (j : JsonVal) (k : String) :
    excIsOk (getKey j k) = hasKeyAt j k := by
  unfold getKey hasKeyAt
  cases h : jlookup j k <;> rfl

theorem getKey_ok {j : JsonVal} {k : String} {v : JsonVal}
    (h : getKey j k = Except.ok v) : jlookup j k = some v := by
  unfold getKey at h
  cases hl : jlookup j k with
  | none => simp only [hl] at h; exact Except.noConfusion h
  | some w =>
    simp only [hl] at h
    injection h with h2
    subst h2
    rfl

theorem asArith_isOk (v : JsonVal) : excIsOk (asArith v) = isArithVal v := by
  cases v <;> rfl

theorem pyIndex_isOk (v : JsonVal) (i : Nat) :
    excIsOk (pyIndex v i) = canIndexAt v i := by
  cases v <;> try rfl
  case arrCons hd tl =>
    simp only [pyIndex, canIndexAt]
    cases hg : (arrToList (JsonVal.arrCons hd tl))[i]? with
    | some el =>
      have hlt : i < (arrToList (JsonVal.arrCons hd tl)).length := by
        by_contra hge
        rw [List.getElem?_eq_none (by omega)] at hg
        exact Option.noConfusion hg
      simp [hg, hlt, excIsOk]
    | none =>
      have hge : ¬ i < (arrToList (JsonVal.arrCons hd tl)).length := by
        intro hlt
        rw [List.getElem?_eq_getElem hlt] at hg
        exact Option.noConfusion hg
      simp [hg, hge, excIsOk]
  case str s =>
    simp only [pyIndex, canIndexAt]
    by_cases hl : i < s.length
    · simp [hl, excIsOk]
    · simp [hl, excIsOk]

theorem arithAt_false_of_err {v : JsonVal} {i : Nat} {e : String}
    (h : pyIndex v i = Except.error e) : arithAt v i = false := by
  cases v <;> try rfl
  case arrCons hd tl =>
    simp only [pyIndex] at h
    simp only [arithAt]
    cases hg : (arrToList (JsonVal.arrCons hd tl))[i]? with
    | none => simp [hg]
    | some el => simp only [hg] at h; exact Except.noConfusion h

theorem arithAt_of_ok {v : JsonVal} {i : Nat} {a : JsonVal}
    (h : pyIndex v i = Except.ok a) : arithAt v i = isArithVal a := by
  cases v <;> try (simp only [pyIndex] at h; exact Except.noConfusion h)
  case arrCons hd tl =>
    simp only [pyIndex] at h
    simp only [arithAt]
    cases hg : (arrToList (JsonVal.arrCons hd tl))[i]? with
    | none => simp only [hg] at h; exact Except.noConfusion h
    | some el =>
      simp only [hg] at h
      injection h with h2
      subst h2
      simp [hg]
  case str s =>
    simp only [pyIndex] at h
    simp only [arithAt]
    by_cases hl : i < s.length
    · rw [if_pos hl] at h
      injection h with h2
      subst h2
      rfl
    · rw [if_neg hl] at h
      exact Except.noConfusion h

theorem computeThinking_isOk (clocks : JsonVal) (idx : Nat) :
    excIsOk (computeThinking clocks idx) =
      (decide (idx < 2) || (arithAt clocks idx && arithAt clocks (idx - 2))) := by
  unfold computeThinking
  by_cases h2 : idx ≥ 2
  · have hlt : ¬ idx < 2 := by omega
    simp only [h2, if_true, decide_eq_false hlt, Bool.false_or]
    cases hI1 : pyIndex clocks idx with
    | error e =>
      rw [arithAt_false_of_err hI1]
      simp [excIsOk]
    | ok a =>
      rw [arithAt_of_ok hI1]
      cases hI0 : pyIndex clocks (idx - 2) with
      | error e =>
        rw [arithAt_false_of_err hI0]
        simp [excIsOk]
      | ok b =>
        rw [arithAt_of_ok hI0]
        cases hA1 : asArith a with
        | error e =>
          have ha1 : isArithVal a = false := by rw [← asArith_isOk, hA1]; rfl
          simp [excIsOk, hA1, ha1]
        | ok c1 =>
          have ha1 : isArithVal a = true := by rw [← asArith_isOk, hA1]; rfl
          cases hA0 : asArith b with
          | error e =>
            have ha0 : isArithVal b = false := by rw [← asArith_isOk, hA0]; rfl
            simp [excIsOk, hA1, hA0, ha1, ha0]
          | ok c0 =>
            have ha0 : isArithVal b = true := by rw [← asArith_isOk, hA0]; rfl
            simp [excIsOk, hA1, hA0, ha1, ha0]
  · have hlt : idx < 2 := by omega
    simp [h2, hlt, excIsOk]

theorem parseEntry_isOk (v : JsonVal) :
    excIsOk (parseEntry v) = entryOk v := by
  unfold parseEntry entryOk
  cases hv : isObj v with
  | false => simp [excIsOk]
  | true =>
    simp only [if_true, Bool.true_and]
    cases hj : jlookup v "judgment" with
    | none => rfl
    | some jv =>
      cases ht : jsonTruthy jv with
      | false => simp [ht, excIsOk]
      | true =>
        simp only [ht, if_true]
        cases hn : jlookup jv "name" with
        | none => simp [excIsOk]
        | some nm =>
          cases hc : jlookup jv "comment" with
          | none => simp [excIsOk]
          | some cm => simp [excIsOk]

theorem computeAnalysis_isOk (ha : Bool) (analyses : Option JsonVal) (idx : Nat) :
    excIsOk (computeAnalysis ha analyses idx) = stepAnalysisOk ha analyses idx := by
  unfold computeAnalysis stepAnalysisOk
  cases ha with
  | false => rfl
  | true =>
    simp only [if_true]
    cases analyses with
    | none => rfl
    | some v =>
      cases v with
      | str s =>
        by_cases hs : s.length ≤ idx
        · have : ¬ idx < s.length := by omega
          simp [this, hs, excIsOk]
        · have : idx < s.length := by omega
          simp [this, hs, excIsOk]
      | arrNil =>
        cases hg : (arrToList JsonVal.arrNil)[idx]? with
        | none => rfl
        | some e => exact parseEntry_isOk e
      | arrCons h t =>
        cases hg : (arrToList (JsonVal.arrCons h t))[idx]? with
        | none => simp [hg, excIsOk]
        | some e => simp [hg, parseEntry_isOk e]
      | objNil => rfl
      | objCons k w t =>
        by_cases ho : objLen (JsonVal.objCons k w t) ≤ idx
        · have : ¬ idx < objLen (JsonVal.objCons k w t) := by omega
          simp [this, ho, excIsOk]
        · have : idx < objLen (JsonVal.objCons k w t) := by omega
          simp [this, ho, excIsOk]
      | num n => rfl
      | boolv b => rfl
      | null => rfl

theorem getObjKey_ok {j : JsonVal} {k : String} {v : JsonVal}
    (h : getObjKey j k = Except.ok v) : jlookup j k = some v ∧ isObj v = true := by
  unfold getObjKey at h
  cases hl : jlookup j k with
  | none => simp only [hl] at h; exact Except.noConfusion h
  | some w =>
    simp only [hl] at h
    cases hv : isObj w with
    | false => rw [hv] at h; simp at h
    | true =>
      rw [hv] at h
      simp only [if_true] at h
      injection h with h2
      subst h2
      exact ⟨rfl, hv⟩

theorem getStrKey_ok {j : JsonVal} {k : String} {s : String}
    (h : getStrKey j k = Except.ok s) : jlookup j k = some (JsonVal.str s) := by
  unfold getStrKey at h
  cases hl : jlookup j k with
  | none => simp only [hl] at h; exact Except.noConfusion h
  | some w =>
    simp only [hl] at h
    cases w <;> try exact Except.noConfusion h
    case str s2 =>
      injection h with h2
      subst h2
      rfl

theorem parsePlayerAnalysis_isOk (p : JsonVal) (ha : Bool) :
    excIsOk (parsePlayerAnalysis p ha) = playerAnalysisOk p ha := by
  unfold parsePlayerAnalysis playerAnalysisOk
  cases ha with
  | false => rfl
  | true =>
    simp only [if_true]
    cases hl : jlookup p "analysis" with
    | none => rfl
    | some a => cases hv : isObj a <;> simp [hv, excIsOk]

theorem parsePlayerSide_isOk (j : JsonVal) (side : String) (c : Color) (ha : Bool) :
    excIsOk (parsePlayerSide j side c ha) = playerOk j side ha := by
  unfold parsePlayerSide playerOk
  cases hE1 : getObjKey j "players" with
  | error e =>
    have hc := getObjKey_isOk j "players"
    rw [hE1] at hc
    simp only [excIsOk] at hc
    rw [← hc]
    simp [excIsOk]
  | ok pjs =>
    obtain ⟨hl1, hv1⟩ := getObjKey_ok hE1
    have hObj1 : hasObjAt j "players" = true := by
      simp [hasObjAt, hl1, hv1]
    have hSub1 : jsub j "players" = pjs := by
      simp [jsub, hl1]
    rw [hObj1, hSub1]
    simp only [Bool.true_and]
    cases hE2 : getObjKey pjs side with
    | error e =>
      have hc := getObjKey_isOk pjs side
      rw [hE2] at hc
      simp only [excIsOk] at hc
      rw [← hc]
      simp [excIsOk]
    | ok p =>
      obtain ⟨hl2, hv2⟩ := getObjKey_ok hE2
      have hObj2 : hasObjAt pjs side = true := by
        simp [hasObjAt, hl2, hv2]
      have hSub2 : jsub pjs side = p := by
        simp [jsub, hl2]
      rw [hObj2, hSub2]
      simp only [Bool.true_and]
      cases hE3 : parsePlayerAnalysis p ha with
      | error e =>
        have hc := parsePlayerAnalysis_isOk p ha
        rw [hE3] at hc
        simp only [excIsOk] at hc
        rw [← hc]
        simp [excIsOk]
      | ok pga =>
        have hA : playerAnalysisOk p ha = true := by
          rw [← parsePlayerAnalysis_isOk, hE3]
          rfl
        rw [hA]
        simp only [Bool.true_and]
        cases hE4 : getObjKey p "user" with
        | error e =>
          have hc := getObjKey_isOk p "user"
          rw [hE4] at hc
          simp only [excIsOk] at hc
          rw [← hc]
          simp [excIsOk]
        | ok u =>
          obtain ⟨hl4, hv4⟩ := getObjKey_ok hE4
          have hObj4 : hasObjAt p "user" = true := by
            simp [hasObjAt, hl4, hv4]
          have hSub4 : jsub p "user" = u := by
            simp [jsub, hl4]
          rw [hObj4, hSub4]
          simp only [Bool.true_and]
          cases hE5 : getKey u "name" with
          | error e =>
            have hc := getKey_isOk u "name"
            rw [hE5] at hc
            simp only [excIsOk] at hc
            rw [← hc]
            simp [excIsOk]
          | ok uname =>
            have hS5 : hasKeyAt u "name" = true := by
              rw [← getKey_isOk, hE5]
              rfl
            rw [hS5]
            simp only [Bool.true_and]
            cases hE6 : getKey u "id" with
            | error e =>
              have hc := getKey_isOk u "id"
              rw [hE6] at hc
              simp only [excIsOk] at hc
              rw [← hc]
              simp [excIsOk]
            | ok uid =>
              have hS6 : hasKeyAt u "id" = true := by
                rw [← getKey_isOk, hE6]
                rfl
              rw [hS6]
              simp only [Bool.true_and]
              cases hE7 : getKey p "rating" with
              | error e =>
                have hc := getKey_isOk p "rating"
                rw [hE7] at hc
                simp only [excIsOk] at hc
                rw [← hc]
                simp [excIsOk]
              | ok rating =>
                have hS7 : hasKeyAt p "rating" = true := by
                  rw [← getKey_isOk, hE7]
                  rfl
                rw [hS7]
                simp only [Bool.true_and]
                cases hE8 : getKey p "ratingDiff" with
                | error e =>
                  have hc := getKey_isOk p "ratingDiff"
                  rw [hE8] at hc
                  simp only [excIsOk] at hc
                  rw [← hc]
                  rfl
                | ok rd =>
                  have hS8 : hasKeyAt p "ratingDiff" = true := by
                    rw [← getKey_isOk, hE8]
                    rfl
                  rw [hS8]
                  rfl

theorem buildMovesGo_isOk (ha : Bool) (clocks : JsonVal)
    (analyses : Option JsonVal) (sans : List String) :
    ∀ (idx : Nat) (pending : Option Move),
      excIsOk (buildMovesGo ha clocks analyses sans idx pending) =
        buildMovesOk ha clocks analyses sans idx := by
  induction sans with
  | nil => intro idx pending; cases pending <;> rfl
  | cons san rest ih =>
    intro idx pending
    unfold buildMovesGo buildMovesOk
    cases hT : computeThinking clocks idx with
    | error e =>
      have hc := computeThinking_isOk clocks idx
      rw [hT] at hc
      simp only [excIsOk] at hc
      rw [← hc]
      rfl
    | ok tt =>
      have hT2 : (decide (idx < 2) ||
          (arithAt clocks idx && arithAt clocks (idx - 2))) = true := by
        rw [← computeThinking_isOk, hT]
        rfl
      rw [hT2]
      simp only [Bool.true_and]
      cases hA : computeAnalysis ha analyses idx with
      | error e =>
        have hc := computeAnalysis_isOk ha analyses idx
        rw [hA] at hc
        simp only [excIsOk] at hc
        rw [← hc]
        rfl
      | ok manal =>
        have hA2 : stepAnalysisOk ha analyses idx = true := by
          rw [← computeAnalysis_isOk, hA]
          rfl
        rw [hA2]
        simp only [Bool.true_and]
        cases hC : pyIndex clocks idx with
        | error e =>
          have hc := pyIndex_isOk clocks idx
          rw [hC] at hc
          simp only [excIsOk] at hc
          rw [← hc]
          rfl
        | ok clk =>
          have hC2 : canIndexAt clocks idx = true := by
            rw [← pyIndex_isOk, hC]
            rfl
          rw [hC2]
          simp only [Bool.true_and]
          cases pending with
          | none => exact ih (idx + 1) _
          | some w =>
            cases hR : buildMovesGo ha clocks analyses rest (idx + 1) none with
            | error e =>
              have hc := ih (idx + 1) none
              rw [hR] at hc
              simp only [excIsOk] at hc
              rw [← hc]
              rfl
            | ok ms =>
              have hc := ih (idx + 1) none
              rw [hR] at hc
              simp only [excIsOk] at hc
              rw [← hc]
              rfl

theorem pliesOf_of_ok {j : JsonVal} {s : String}
    (h : getStrKey j "moves" = Except.ok s) : pliesOf j = pySplitChar ' ' s := by
  have hl := getStrKey_ok h
  simp [pliesOf, hl]

theorem clocksOf_of_ok {j : JsonVal} {v : JsonVal}
    (h : getKey j "clocks" = Except.ok v) : clocksOf j = v := by
  have hl := getKey_ok h
  simp [clocksOf, hl]

/-- C6 (amended): the parser succeeds exactly on records with the full
mandatory structure: a players block whose two sides each carry a user
mapping with name and id keys plus rating and ratingDiff keys (the leaf
values themselves are stored unchecked), a moves string, a clocks value
that can be subscripted at every ply index and whose subtracted samples
(from ply 2 on) are numbers or booleans, well-formed per-ply analysis
entries whenever the analysis flag is set, and opening, clock and
division blocks; every other missing field is defaulted. In particular
the opening, clock and division blocks and the per-player keys are also
mandatory, not only players, moves and clock-sample coverage. -/
theorem c6_parse_succeeds_iff_mandatory (j : JsonVal) :
    excIsOk (create_game_from_json j) = mandatoryOk j := by
  unfold create_game_from_json mandatoryOk
  cases hE1 : parsePlayerSide j "white" Color.white (hasAnalysisSubstr j) with
  | error e =>
    have hc := parsePlayerSide_isOk j "white" Color.white (hasAnalysisSubstr j)
    rw [hE1] at hc
    simp only [excIsOk] at hc
    rw [← hc]
    rfl
  | ok pw =>
    have h1 : playerOk j "white" (hasAnalysisSubstr j) = true := by
      rw [← parsePlayerSide_isOk j "white" Color.white, hE1]
      rfl
    rw [h1]
    simp only [Bool.true_and]
    cases hE2 : parsePlayerSide j "black" Color.black (hasAnalysisSubstr j) with
    | error e =>
      have hc := parsePlayerSide_isOk j "black" Color.black (hasAnalysisSubstr j)
      rw [hE2] at hc
      simp only [excIsOk] at hc
      rw [← hc]
      rfl
    | ok pb =>
      have h2 : playerOk j "black" (hasAnalysisSubstr j) = true := by
        rw [← parsePlayerSide_isOk j "black" Color.black, hE2]
        rfl
      rw [h2]
      simp only [Bool.true_and]
      cases hE3 : getStrKey j "moves" with
      | error e =>
        have hc := getStrKey_isOk j "moves"
        rw [hE3] at hc
        simp only [excIsOk] at hc
        rw [← hc]
        rfl
      | ok movesStr =>
        have h3 : hasStrAt j "moves" = true := by
          rw [← getStrKey_isOk, hE3]
          rfl
        rw [h3]
        simp only [Bool.true_and]
        cases hE4 : getKey j "clocks" with
        | error e =>
          have hc := getKey_isOk j "clocks"
          rw [hE4] at hc
          simp only [excIsOk] at hc
          rw [← hc]
          rfl
        | ok moves_clocks =>
          have h4 : hasKeyAt j "clocks" = true := by
            rw [← getKey_isOk, hE4]
            rfl
          rw [h4]
          simp only [Bool.true_and]
          rw [pliesOf_of_ok hE3, clocksOf_of_ok hE4]
          unfold buildMoves
          cases hE5 : buildMovesGo (hasAnalysisSubstr j) moves_clocks
              (jlookup j "analysis") (pySplitChar ' ' movesStr) 0 none with
          | error e =>
            have hc := buildMovesGo_isOk (hasAnalysisSubstr j) moves_clocks
              (jlookup j "analysis") (pySplitChar ' ' movesStr) 0 none
            rw [hE5] at hc
            simp only [excIsOk] at hc
            rw [← hc]
            rfl
          | ok moves =>
            have h5 : buildMovesOk (hasAnalysisSubstr j) moves_clocks
                (jlookup j "analysis") (pySplitChar ' ' movesStr) 0 = true := by
              rw [← buildMovesGo_isOk (hasAnalysisSubstr j) moves_clocks
                (jlookup j "analysis") (pySplitChar ' ' movesStr) 0 none, hE5]
              rfl
            rw [h5]
            simp only [Bool.true_and]
            cases hE6 : getObjKey j "opening" with
            | error e =>
              have hc := getObjKey_isOk j "opening"
              rw [hE6] at hc
              simp only [excIsOk] at hc
              rw [← hc]
              rfl
            | ok op =>
              have h6 : hasObjAt j "opening" = true := by
                rw [← getObjKey_isOk, hE6]
                rfl
              rw [h6]
              simp only [Bool.true_and]
              cases hE7 : getObjKey j "clock" with
              | error e =>
                have hc := getObjKey_isOk j "clock"
                rw [hE7] at hc
                simp only [excIsOk] at hc
                rw [← hc]
                rfl
              | ok ck =>
                have h7 : hasObjAt j "clock" = true := by
                  rw [← getObjKey_isOk, hE7]
                  rfl
                rw [h7]
                simp only [Bool.true_and]
                cases hE8 : getObjKey j "division" with
                | error e =>
                  have hc := getObjKey_isOk j "division"
                  rw [hE8] at hc
                  simp only [excIsOk] at hc
                  rw [← hc]
                  rfl
                | ok dv =>
                  have h8 : hasObjAt j "division" = true := by
                    rw [← getObjKey_isOk, hE8]
                    rfl
                  rw [h8]
                  rfl

/-! ## Helper lemmas: inversion of a successful parse -/

theorem parse_ok_fields {j : JsonVal} {g : Game}
    (h : create_game_from_json j = Except.ok g) :
    g.has_analysis = hasAnalysisSubstr j ∧
    g.winner = parseWinner j ∧
    g.status = jStrD j "status" "N/A" ∧
    buildMoves (hasAnalysisSubstr j) (clocksOf j) (jlookup j "analysis") (pliesOf j) =
      Except.ok g.moves := by
  unfold create_game_from_json at h
  cases hE1 : parsePlayerSide j "white" Color.white (hasAnalysisSubstr j) with
  | error e => simp only [hE1] at h; exact Except.noConfusion h
  | ok pw =>
  simp only [hE1] at h
  cases hE2 : parsePlayerSide j "black" Color.black (hasAnalysisSubstr j) with
  | error e => simp only [hE2] at h; exact Except.noConfusion h
  | ok pb =>
  simp only [hE2] at h
  cases hE3 : getStrKey j "moves" with
  | error e => simp only [hE3] at h; exact Except.noConfusion h
  | ok movesStr =>
  simp only [hE3] at h
  cases hE4 : getKey j "clocks" with
  | error e => simp only [hE4] at h; exact Except.noConfusion h
  | ok moves_clocks =>
  simp only [hE4] at h
  cases hE5 : buildMoves (hasAnalysisSubstr j) moves_clocks (jlookup j "analysis")
      (pySplitChar ' ' movesStr) with
  | error e => simp only [hE5] at h; exact Except.noConfusion h
  | ok moves =>
  simp only [hE5] at h
  cases hE6 : getObjKey j "opening" with
  | error e => simp only [hE6] at h; exact Except.noConfusion h
  | ok op =>
  simp only [hE6] at h
  cases hE7 : getObjKey j "clock" with
  | error e => simp only [hE7] at h; exact Except.noConfusion h
  | ok ck =>
  simp only [hE7] at h
  cases hE8 : getObjKey j "division" with
  | error e => simp only [hE8] at h; exact Except.noConfusion h
  | ok dv =>
  simp only [hE8] at h
  injection h with h2
  subst h2
  refine ⟨rfl, rfl, rfl, ?_⟩
  rw [pliesOf_of_ok hE3, clocksOf_of_ok hE4]
  exact hE5

/-! ## Helper lemmas: shape of the parsed move pairs -/

theorem buildMovesGo_sans (ha : Bool) (clocks : JsonVal)
    (analyses : Option JsonVal) (sans : List String) :
    ∀ (idx : Nat) (pending : Option Move) (ms : List (Move × Option Move)),
      buildMovesGo ha clocks analyses sans idx pending = Except.ok ms →
      (plyList ms).map Move.san =
        (match pending with | some w => [w.san] | none => []) ++ sans := by
  induction sans with
  | nil =>
    intro idx pending ms h
    cases pending with
    | none => injection h with h2; subst h2; rfl
    | some w => injection h with h2; subst h2; rfl
  | cons san rest ih =>
    intro idx pending ms h
    unfold buildMovesGo at h
    cases hT : computeThinking clocks idx with
    | error e => simp only [hT] at h; exact Except.noConfusion h
    | ok tt =>
    simp only [hT] at h
    cases hA : computeAnalysis ha analyses idx with
    | error e => simp only [hA] at h; exact Except.noConfusion h
    | ok manal =>
    simp only [hA] at h
    cases hC : pyIndex clocks idx with
    | error e => simp only [hC] at h; exact Except.noConfusion h
    | ok clk =>
    simp only [hC] at h
    cases pending with
    | none =>
      have h2 := ih (idx + 1) (some ⟨san, arithD clk, tt, manal⟩) ms h
      simpa using h2
    | some w =>
      cases hR : buildMovesGo ha clocks analyses rest (idx + 1) none with
      | error e => simp only [hR] at h; exact Except.noConfusion h
      | ok ms2 =>
        simp only [hR] at h
        injection h with h2
        subst h2
        have h3 := ih (idx + 1) none ms2 hR
        simp only [plyList, List.map, h3]
        rfl

theorem buildMovesGo_length (ha : Bool) (clocks : JsonVal)
    (analyses : Option JsonVal) (sans : List String) :
    ∀ (idx : Nat) (pending : Option Move) (ms : List (Move × Option Move)),
      buildMovesGo ha clocks analyses sans idx pending = Except.ok ms →
      ms.length =
        ((match pending with | some _ => 1 | none => 0) + sans.length + 1) / 2 := by
  induction sans with
  | nil =>
    intro idx pending ms h
    cases pending with
    | none => injection h with h2; subst h2; simp
    | some w => injection h with h2; subst h2; simp
  | cons san rest ih =>
    intro idx pending ms h
    unfold buildMovesGo at h
    cases hT : computeThinking clocks idx with
    | error e => simp only [hT] at h; exact Except.noConfusion h
    | ok tt =>
    simp only [hT] at h
    cases hA : computeAnalysis ha analyses idx with
    | error e => simp only [hA] at h; exact Except.noConfusion h
    | ok manal =>
    simp only [hA] at h
    cases hC : pyIndex clocks idx with
    | error e => simp only [hC] at h; exact Except.noConfusion h
    | ok clk =>
    simp only [hC] at h
    cases pending with
    | none =>
      have h2 := ih (idx + 1) (some ⟨san, arithD clk, tt, manal⟩) ms h
      simp only [List.length_cons] at h2 ⊢
      omega
    | some w =>
      cases hR : buildMovesGo ha clocks analyses rest (idx + 1) none with
      | error e => simp only [hR] at h; exact Except.noConfusion h
      | ok ms2 =>
        simp only [hR] at h
        injection h with h2
        subst h2
        have h3 := ih (idx + 1) none ms2 hR
        simp only [List.length_cons] at h3 ⊢
        omega

theorem buildMovesGo_last (ha : Bool) (clocks : JsonVal)
    (analyses : Option JsonVal) (sans : List String) :
    ∀ (idx : Nat) (pending : Option Move) (ms : List (Move × Option Move)),
      buildMovesGo ha clocks analyses sans idx pending = Except.ok ms →
      lastBlackAbsent ms =
        (((match pending with | some _ => 1 | none => 0) + sans.length) % 2 == 1) := by
  induction sans with
  | nil =>
    intro idx pending ms h
    cases pending with
    | none => injection h with h2; subst h2; simp [lastBlackAbsent]
    | some w => injection h with h2; subst h2; simp [lastBlackAbsent]
  | cons san rest ih =>
    intro idx pending ms h
    unfold buildMovesGo at h
    cases hT : computeThinking clocks idx with
    | error e => simp only [hT] at h; exact Except.noConfusion h
    | ok tt =>
    simp only [hT] at h
    cases hA : computeAnalysis ha analyses idx with
    | error e => simp only [hA] at h; exact Except.noConfusion h
    | ok manal =>
    simp only [hA] at h
    cases hC : pyIndex clocks idx with
    | error e => simp only [hC] at h; exact Except.noConfusion h
    | ok clk =>
    simp only [hC] at h
    cases pending with
    | none =>
      have h2 := ih (idx + 1) (some ⟨san, arithD clk, tt, manal⟩) ms h
      rw [h2]
      congr 1
      simp only [List.length_cons]
      omega
    | some w =>
      cases hR : buildMovesGo ha clocks analyses rest (idx + 1) none with
      | error e => simp only [hR] at h; exact Except.noConfusion h
      | ok ms2 =>
        simp only [hR] at h
        injection h with h2
        subst h2
        cases ms2 with
        | nil =>
          have hlen := buildMovesGo_length ha clocks analyses rest (idx + 1) none [] hR
          simp only [List.length_nil] at hlen
          have hr0 : rest.length = 0 := by omega
          simp only [lastBlackAbsent, List.length_cons, hr0]
          rfl
        | cons p rest2 =>
          have h3 := ih (idx + 1) none (p :: rest2) hR
          simp only [lastBlackAbsent] at h3 ⊢
          rw [h3]
          congr 1
          simp only [List.length_cons]
          omega

/-! ## Claim theorems -/

/-- C2 counterexample: a middlegame boundary at ply 40 renders as move 21
with side black, not white; and a boundary at ply 0 is not rendered at all
while a boundary at ply 1 renders as white. -/
theorem c2_counterexample :
    phase_lines { middle := some 40, end_ := none } =
      "Middlegame started at move 21 (black)\n" ∧
    phase_lines { middle := some 40, end_ := none } ≠
      "Middlegame started at move 21 (white)\n" ∧
    phase_lines { middle := some 0, end_ := some 1 } =
      "Endgame started at move 1 (white)\n" := by
  refine ⟨by decide, by decide, by decide⟩

/-- C2 (amended): a present phase boundary at ply p renders only when p is
nonzero, with move number p // 2 + 1 and side black exactly when p is
even (white when p is odd); in particular ply 0 is suppressed, ply 1
renders as move 1 white and ply 40 as move 21 black. -/
theorem c2_phase_mapping :
    (∀ m e : Int, phase_lines { middle := some m, end_ := some e } =
      (if m == 0 then "" else
        "Middlegame started at move " ++ toString (Int.fdiv m 2 + 1) ++ " (" ++
          (if Int.fmod m 2 == 0 then "black" else "white") ++ ")\n") ++
      (if e == 0 then "" else
        "Endgame started at move " ++ toString (Int.fdiv e 2 + 1) ++ " (" ++
          (if Int.fmod e 2 == 0 then "black" else "white") ++ ")\n")) ∧
    phase_lines { middle := none, end_ := none } = "" := by
  constructor
  · intro m e
    cases hm : (m == 0) <;> cases he : (e == 0) <;>
      simp [phase_lines, bne, hm, he]
  · rfl

/-- C2 witness: the amended mapping evaluated at plies 40 and 1. -/
theorem c2_phase_mapping_witness :
    phase_lines { middle := some 40, end_ := some 1 } =
      (if (40 : Int) == 0 then "" else
        "Middlegame started at move " ++ toString (Int.fdiv 40 2 + 1) ++ " (" ++
          (if Int.fmod 40 2 == 0 then "black" else "white") ++ ")\n") ++
      (if (1 : Int) == 0 then "" else
        "Endgame started at move " ++ toString (Int.fdiv 1 2 + 1) ++ " (" ++
          (if Int.fmod 1 2 == 0 then "black" else "white") ++ ")\n") :=
  c2_phase_mapping.1 40 1

/-- C3 counterexample: with a winner present and the unmapped status code
cheat, rendering the result line raises (the endings table lookup fails)
instead of producing the fallback phrase. -/
theorem c3_counterexample :
    game_ending gameCheatStatus = none ∧
    game_ending gameCheatStatus ≠ some "White wins: black ended unexpectedly" := by
  refine ⟨by decide, by decide⟩

/-- C3 (amended): with a winner present the result line renders exactly
when the status is one of the five mapped codes (draw, stalemate, mate,
resign, outoftime), via the winner-wins phrase; any other status makes the
lookup fail, so rendering raises rather than falling back. -/
theorem c3_result_line :
    (∀ (g : Game) (c : Color), g.winner = some c →
      game_ending g = (pretty_endings g.status).map (fun e =>
        pyCapitalize c.value ++ " wins: " ++
          (if c == Color.white then Color.value Color.black
           else Color.value Color.white) ++ " " ++ e)) ∧
    pretty_endings "draw" = some "draw" ∧
    pretty_endings "stalemate" = some "stalemate" ∧
    pretty_endings "mate" = some "was checkmated" ∧
    pretty_endings "resign" = some "resigned" ∧
    pretty_endings "outoftime" = some "ran out of time" ∧
    (∀ s : String, s ≠ "draw" → s ≠ "stalemate" → s ≠ "mate" → s ≠ "resign" →
      s ≠ "outoftime" → pretty_endings s = none) := by
  refine ⟨?_, rfl, rfl, rfl, rfl, rfl, ?_⟩
  · intro g c h
    unfold game_ending
    rw [h]
    cases hp : pretty_endings g.status <;> simp [hp]
  · intro s h1 h2 h3 h4 h5
    simp [pretty_endings, beq_iff_eq, h1, h2, h3, h4, h5]

/-- C3 witness: the amended statement applied to a concrete winner-present
game with a mapped status, and the lookup failure at the status cheat. -/
theorem c3_result_line_witness :
    game_ending gameWhiteResign = some "White wins: black resigned" ∧
    pretty_endings "cheat" = none := by
  constructor
  · rw [c3_result_line.1 gameWhiteResign Color.white rfl]
    decide
  · exact c3_result_line.2.2.2.2.2.2 "cheat" (by decide) (by decide) (by decide)
      (by decide) (by decide)

/-- C8: the rendered score strings depend only on the winner field, and
map winner white to 1-0, winner black to 0-1, and an absent winner to the
half-half scores, whatever the status. -/
theorem c8_scores :
    (∀ g1 g2 : Game, g1.winner = g2.winner → score_strings g1 = score_strings g2) ∧
    (∀ g : Game,
      (g.winner = some Color.white → score_strings g = ("1", "0")) ∧
      (g.winner = some Color.black → score_strings g = ("0", "1")) ∧
      (g.winner = none → score_strings g = ("½", "½"))) := by
  constructor
  · intro g1 g2 h
    unfold score_strings
    rw [h]
  · intro g
    refine ⟨?_, ?_, ?_⟩ <;> intro h <;> simp [score_strings, h]

/-- C8 witness: the score mapping at three concrete games, including a
stalemate-status draw. -/
theorem c8_scores_witness :
    score_strings gameWhiteResign = ("1", "0") ∧
    score_strings gameBlackFlag = ("0", "1") ∧
    score_strings { gameZeroMoves with status := "stalemate" } = ("½", "½") :=
  ⟨(c8_scores.2 gameWhiteResign).1 rfl,
   (c8_scores.2 gameBlackFlag).2.1 rfl,
   (c8_scores.2 { gameZeroMoves with status := "stalemate" }).2.2 rfl⟩

/-- C9: the decorated move is the raw SAN with exactly one suffix chosen
by the judgment name: Inaccuracy appends ?!, Mistake appends ?, Blunder
appends ??, and an absent or any other judgment appends nothing. -/
theorem string_append_empty (s : String) : s ++ "" = s := by
  cases s with
  | mk l =>
    show String.mk (l ++ []) = String.mk l
    rw [List.append_nil]

theorem c9_decoration (m : Move) :
    get_decorated_move m = m.san ++
      (match m.analysis.judgement with
       | none => ""
       | some j =>
         if j.name == some "Inaccuracy" then "?!"
         else if j.name == some "Mistake" then "?"
         else if j.name == some "Blunder" then "??"
         else "") := by
  unfold get_decorated_move
  cases hj : m.analysis.judgement with
  | none => simp
  | some j =>
    by_cases h1 : j.name = some "Inaccuracy"
    · simp [h1, beq_iff_eq]
    · by_cases h2 : j.name = some "Mistake"
      · simp [h1, h2, beq_iff_eq]
      · by_cases h3 : j.name = some "Blunder"
        · simp [h1, h2, h3, beq_iff_eq]
        · simp [h1, h2, h3, beq_iff_eq, string_append_empty]

/-- C9 witness: the decoration at a concrete Mistake-judged move. -/
theorem c9_decoration_witness :
    get_decorated_move sampleMistakeMove = sampleMistakeMove.san ++
      (match sampleMistakeMove.analysis.judgement with
       | none => ""
       | some j =>
         if j.name == some "Inaccuracy" then "?!"
         else if j.name == some "Mistake" then "?"
         else if j.name == some "Blunder" then "??"
         else "") :=
  c9_decoration sampleMistakeMove

/-- C4 (amended): for any game record with zero moves, the final-position
replay is a no-op — the board is the standard initial position, whatever
the push collaborator does, and the diagram shows the initial position
with its legend — but rendering the full report raises, because building
the image link indexes the last element of the empty move stack. -/
theorem c4_zero_moves (push : PushSan) (g : Game) (h : g.moves = []) :
    board_at_end push g = some (initial_board, initialDiagram) ∧
    to_console push g = none := by
  have hb : board_at_end push g = some (initial_board, initialDiagram) := by
    unfold board_at_end
    rw [h]
    rfl
  refine ⟨hb, ?_⟩
  unfold to_console
  cases hp : g.players with
  | nil => rfl
  | cons pw rest =>
    cases rest with
    | nil => rfl
    | cons pb rest2 =>
      cases rest2 with
      | cons x xs => rfl
      | nil =>
        cases he : game_ending g with
        | none => rfl
        | some ending =>
          rw [hb]
          rfl

/-- C4 witness: the amended statement at a concrete zero-move game. -/
theorem c4_zero_moves_witness :
    gameZeroMoves.moves = [] ∧
    (board_at_end pushAny gameZeroMoves = some (initial_board, initialDiagram) ∧
     to_console pushAny gameZeroMoves = none) :=
  ⟨rfl, c4_zero_moves pushAny gameZeroMoves rfl⟩

/-- C4 counterexample: rendering the report of a concrete zero-move game
record does not succeed; the renderer raises while constructing the image
link (the final-position replay itself is a no-op). -/
theorem c4_counterexample : to_console pushAny gameZeroMoves = none := by
  decide

/-- C6 counterexample: a record with a fully adequate players block, a
moves string, a clocks list covering every ply, but no opening block,
fails to parse even though the claim says only players, moves and
clock-sample coverage are mandatory. -/
theorem c6_counterexample :
    playerOk exNoOpening "white" (hasAnalysisSubstr exNoOpening) = true ∧
    playerOk exNoOpening "black" (hasAnalysisSubstr exNoOpening) = true ∧
    hasStrAt exNoOpening "moves" = true ∧
    hasKeyAt exNoOpening "clocks" = true ∧
    buildMovesOk (hasAnalysisSubstr exNoOpening) (clocksOf exNoOpening)
      (jlookup exNoOpening "analysis") (pliesOf exNoOpening) 0 = true ∧
    excIsOk (create_game_from_json exNoOpening) = false := by
  refine ⟨by decide, by decide, by decide, by decide, by decide, by decide⟩

/-- C6 witness: the characterization evaluated at a complete record and at
the record missing its opening block. -/
theorem c6_witness :
    excIsOk (create_game_from_json exThinking) = mandatoryOk exThinking ∧
    mandatoryOk exThinking = true ∧
    excIsOk (create_game_from_json exNoOpening) = mandatoryOk exNoOpening ∧
    mandatoryOk exNoOpening = false :=
  ⟨c6_parse_succeeds_iff_mandatory exThinking, by decide,
   c6_parse_succeeds_iff_mandatory exNoOpening, by decide⟩

/-- C1 code-bug evidence: on the record exThinking (plies e4, e5, Nf3 with
clock samples 30000, 30000, 28000 centiseconds) the parser stores
thinking time clocks[2] − clocks[0] = −2000 at ply index 2, where the
claim (clock[0] − clock[2]) requires +2000: the source subtracts in the
reverse order, producing negated thinking times. -/
theorem c1_thinking_time_sign :
    (excToOpt (create_game_from_json exThinking)).map
      (fun g => (plyList g.moves).map (fun m => m.thinking_time_centoseconds)) =
      some [0, 0, -2000] := by
  decide

/-- C5 counterexample: a record with no analysis field anywhere, whose
white player name analysisfan merely contains the word, makes the
serialized-substring test true, and parsing then fails (len of a missing
analysis list) instead of yielding a false flag without erroring. -/
theorem c5_counterexample :
    hasAnalysisSubstr exFalsePositive = true ∧
    excIsOk (create_game_from_json exFalsePositive) = false := by
  refine ⟨by decide, by decide⟩

/-- C5 (amended): whenever the parser succeeds, the stored analysis flag
equals the substring test on the JSON serialization of the record —
textual occurrences of the word analysis count — rather than a structural
check; a false positive without a top-level analysis list makes parsing
fail instead. -/
theorem c5_flag_is_substring_test (j : JsonVal)
    (h : excIsOk (create_game_from_json j) = true) :
    (excToOpt (create_game_from_json j)).map Game.has_analysis =
      some (hasAnalysisSubstr j) := by
  cases hp : create_game_from_json j with
  | error e => rw [hp] at h; simp [excIsOk] at h
  | ok g =>
    have hf := (parse_ok_fields hp).1
    simp [excToOpt, hf]

/-- C5 witness: the flag equation at a record with genuine analysis. -/
theorem c5_flag_witness :
    excIsOk (create_game_from_json exAnalysis) = true ∧
    (excToOpt (create_game_from_json exAnalysis)).map Game.has_analysis =
      some (hasAnalysisSubstr exAnalysis) :=
  ⟨by decide, c5_flag_is_substring_test exAnalysis (by decide)⟩

/-- C7: for every raw record the parser accepts, with N plies given by
splitting the moves string, the parsed pairs flatten back to exactly those
N plies in order (each pair holds its white ply first), the pair count is
(N + 1) / 2 = ⌈N/2⌉, and the last pair lacks its black move iff N is odd. -/
theorem c7_pairing (j : JsonVal) (h : excIsOk (create_game_from_json j) = true) :
    (excToOpt (create_game_from_json j)).map
      (fun g => ((plyList g.moves).map Move.san, g.moves.length,
                 lastBlackAbsent g.moves)) =
      some (pliesOf j, ((pliesOf j).length + 1) / 2,
            ((pliesOf j).length % 2 == 1)) := by
  cases hp : create_game_from_json j with
  | error e => rw [hp] at h; simp [excIsOk] at h
  | ok g =>
    have hbm := (parse_ok_fields hp).2.2.2
    unfold buildMoves at hbm
    have h1 := buildMovesGo_sans _ _ _ _ _ _ _ hbm
    have h2 := buildMovesGo_length _ _ _ _ _ _ _ hbm
    have h3 := buildMovesGo_last _ _ _ _ _ _ _ hbm
    simp only [List.length_nil] at h2 h3
    simp [excToOpt, h1, h2, h3]

/-- C7 witness: the pairing shape at a concrete 3-ply record. -/
theorem c7_pairing_witness :
    excIsOk (create_game_from_json exThinking) = true ∧
    (excToOpt (create_game_from_json exThinking)).map
      (fun g => ((plyList g.moves).map Move.san, g.moves.length,
                 lastBlackAbsent g.moves)) =
      some (pliesOf exThinking, ((pliesOf exThinking).length + 1) / 2,
            ((pliesOf exThinking).length % 2 == 1)) :=
  ⟨by decide, c7_pairing exThinking (by decide)⟩

end PyChess
